import Mathlib

/-!
Shallow embedding of `src/userprog/syscall.c` (Pintos project-2 syscall layer).

Kernel state is a record; each handler is a pure function from state to a
result, a successor state and a trace of observable events (collaborator
calls, user-memory accesses, lock operations).  Traces let us state the
ordering properties of the spec: which collaborators were invoked, and
whether the Address Validator ran before a user pointer was dereferenced.

Execution is single-threaded: `lock_acquire` is modelled as immediately
succeeding (the claims under study do not concern blocking).
-/

namespace Pintos

/-- Observable events emitted by the syscall layer: collaborator calls,
user-memory accesses and lock operations, in program order. -/
inductive Event where
  | lockAcquire : Event
  | lockRelease : Event
  /-- `is_user_vaddr (addr)` was evaluated by a handler on a user pointer. -/
  | validate (addr : Nat) : Event
  /-- one byte obtained from the console device (`input_getc`). -/
  | inputGetc : Event
  /-- the handler itself stored one byte through user address `addr`. -/
  | storeUserByte (addr : Nat) : Event
  /-- `putbuf (buffer, len)`: bulk write to the console. -/
  | putbuf (addr : Nat) (len : Nat) : Event
  /-- `file_read (f, buffer, len)` on file object `f`. -/
  | fileRead (f : Option Nat) (len : Nat) : Event
  /-- `file_write (f, buffer, len)`; `f = none` models a NULL file pointer,
  which the real collaborator cannot tolerate (it dereferences it). -/
  | fileWrite (f : Option Nat) (len : Nat) : Event
  /-- `file_close (f)`. -/
  | fileClose (f : Nat) : Event
  /-- `filesys_open (path)`. -/
  | filesysOpen (path : Nat) : Event
  /-- `process_execute (cmd)`. -/
  | processExecute (cmd : Nat) : Event
  /-- `thread_exit ()`: the process disappears; control never returns. -/
  | threadExit : Event
deriving DecidableEq

/-- Result of one handler invocation: either a value returned to the trap
frame, or termination of the process (the `sys_exit` path never returns). -/
inductive Res where
  | ok (v : Int) : Res
  | exited (status : Int) : Res
deriving DecidableEq

/-- `struct filedescriptor_elem`: one record linking an integer file
descriptor to a file object and (through `thread_elem`) to its owner.  The
two intrusive lists (`elem` into `open_file_list`, `thread_elem` into
`cur->all_files`) are modelled by one record list plus an `owner` field. -/
structure FDE where
  filedesc : Int
  file : Nat
  owner : Nat
deriving DecidableEq

/-- Kernel state: the global `open_file_list`, the current thread, the
holder of `file_lock`, the static `fid` counter of `sys_open`, each
thread's `return_status`, plus the oracles for the external collaborators
(filesystem, process subsystem, allocator). -/
structure KState where
  openList : List FDE
  cur : Nat
  lockHeldBy : Option Nat
  nextFid : Int
  retStatus : Nat → Int
  fileReadR : Nat → Nat → Int
  fileWriteR : Option Nat → Nat → Int
  filesysOpenR : Nat → Option Nat
  processExecuteR : Nat → Int
  mallocOk : Bool

/-- Modelled from the spec: the Address Validator's boundary (the header
`threads/vaddr.h` is not under `src/`) — the base of the kernel-reserved
region, `PHYS_BASE = 0xC0000000`. -/
def PHYS_BASE : Nat := 3221225472

/-- Modelled from the spec: the Address Validator (`is_user_vaddr` of
`threads/vaddr.h`, not under `src/`) — an address is valid exactly when it
lies below `PHYS_BASE`. -/
def is_user_vaddr (a : Nat) : Bool := a < PHYS_BASE

/-- `cur->all_files`: the sublist of `open_file_list` owned by the current
thread, in insertion order. -/
def allFiles (st : KState) : List FDE :=
  st.openList.filter (fun e => e.owner == st.cur)

/-- `find_file_by_fde`: scans the GLOBAL `open_file_list` (not the caller's
own list) for the first record with the given descriptor. -/
def find_file_by_fde (st : KState) (fd : Int) : Option Nat :=
  (st.openList.find? (fun e => e.filedesc == fd)).map (fun e => e.file)

/-- `find_fde_by_file`: scans `thread_current ()->all_files` only. -/
def find_fde_by_file (st : KState) (fd : Int) : Option FDE :=
  (allFiles st).find? (fun e => e.filedesc == fd)

/-- Removal of the list node found by `find_fde_by_file`: the first record
with the given owner and descriptor disappears from the global list (the
`list_remove` pair on `elem` and `thread_elem`). -/
def removeFirstOwned : List FDE → Nat → Int → List FDE
  | [], _, _ => []
  | e :: rest, cur, fd =>
    if e.owner == cur && e.filedesc == fd then rest
    else e :: removeFirstOwned rest cur fd

/-- `sys_close`: resolve the descriptor in the caller's own list; if found,
close the file object, unlink the record from both lists and free it;
otherwise do nothing. -/
def sys_close (st : KState) (fd : Int) : KState × List Event :=
  match find_fde_by_file st fd with
  | none => (st, [])
  | some fde =>
      ({ st with openList := removeFirstOwned st.openList st.cur fd },
       [Event.fileClose fde.file])

/-- The `while (!list_empty (&cur->all_files))` loop of `sys_exit`: close
the descriptor at the head of the caller's list until the list is empty.
The fuel is instantiated with the length of the list, which we prove below
is exactly the number of iterations the C loop performs. -/
def closeAll : Nat → KState → KState × List Event
  | 0, st => (st, [])
  | fuel + 1, st =>
    match (allFiles st).head? with
    | none => (st, [])
    | some e =>
        let p := sys_close st e.filedesc
        let q := closeAll fuel p.1
        (q.1, p.2 ++ q.2)

/-- `sys_exit`: release `file_lock` if the caller holds it, close every
descriptor owned by the caller, record the exit status, and hand control
to `thread_exit` — the function yields no return value to its caller. -/
def sys_exit (status : Int) (st : KState) : KState × List Event :=
  let p :=
    if st.lockHeldBy == some st.cur
    then ({ st with lockHeldBy := none }, [Event.lockRelease])
    else (st, ([] : List Event))
  let q := closeAll (allFiles p.1).length p.1
  ({ q.1 with retStatus := fun t => if t == q.1.cur then status else q.1.retStatus t },
   p.2 ++ q.2 ++ [Event.threadExit])

/-- The buffer-range check of `sys_read` / `sys_write`:
`!is_user_vaddr (buffer) || !is_user_vaddr (buffer + size)`. -/
def bufInvalid (buffer size : Nat) : Bool :=
  !(is_user_vaddr buffer) || !(is_user_vaddr (buffer + size))

/-- Validation events emitted while evaluating `bufInvalid`, honouring the
C short-circuit: the second operand is only evaluated when the first
address is valid. -/
def checkBufEvents (buffer size : Nat) : List Event :=
  if is_user_vaddr buffer
  then [Event.validate buffer, Event.validate (buffer + size)]
  else [Event.validate buffer]

/-- The console-read loop of `sys_read` for `file_desc == STDIN_FILENO`:
`uint16_t i; for (i = 0; i < size; i++) *(uint8_t *) (buffer + i) = input_getc ();`
The counter is 16-bit, hence the `% 65536` on increment; the comparison
promotes it to the full-width `size`.  The fuel argument makes the loop a
total function; `none` means the fuel ran out before the loop exited. -/
def sys_read_stdin_loop (buffer size : Nat) : Nat → Nat → List Event → Option (List Event)
  | 0, _, _ => none
  | fuel + 1, i, acc =>
    if i < size
    then sys_read_stdin_loop buffer size fuel ((i + 1) % 65536)
           (acc ++ [Event.inputGetc, Event.storeUserByte (buffer + i)])
    else some acc

/-- `sys_read`.  Branches in source order: `STDIN_FILENO` (0) console loop,
`STDOUT_FILENO` (1) returns −1, invalid buffer releases the lock and
exits, otherwise the descriptor is resolved through the GLOBAL list and
`file_read` runs when it resolved.  The `STDIN` return value `size` is
only reached when the loop exits, i.e. when `size < 65536`, where the
`unsigned` → `int` conversion is the identity. -/
def sys_read (fuel : Nat) (st : KState) (fd : Int) (buffer size : Nat) :
    Option (Res × KState × List Event) :=
  let st1 := { st with lockHeldBy := some st.cur }
  if fd == 0 then
    match sys_read_stdin_loop buffer size fuel 0 [] with
    | none => none
    | some tr =>
        some (Res.ok (size : Int), { st1 with lockHeldBy := none },
              [Event.lockAcquire] ++ tr ++ [Event.lockRelease])
  else if fd == 1 then
    some (Res.ok (-1), { st1 with lockHeldBy := none },
          [Event.lockAcquire, Event.lockRelease])
  else if bufInvalid buffer size then
    let st2 := { st1 with lockHeldBy := none }
    let p := sys_exit (-1) st2
    some (Res.exited (-1), p.1,
          [Event.lockAcquire] ++ checkBufEvents buffer size ++ [Event.lockRelease] ++ p.2)
  else
    match find_file_by_fde st1 fd with
    | some f =>
        some (Res.ok (st.fileReadR f size), { st1 with lockHeldBy := none },
              [Event.lockAcquire] ++ checkBufEvents buffer size ++
                [Event.fileRead (some f) size, Event.lockRelease])
    | none =>
        some (Res.ok (-1), { st1 with lockHeldBy := none },
              [Event.lockAcquire] ++ checkBufEvents buffer size ++ [Event.lockRelease])

/-- `sys_write`.  Branches in source order: `STDOUT_FILENO` calls `putbuf`
and leaves `return_val` at its initial −1, `STDIN_FILENO` returns −1,
invalid buffer releases the lock and exits.  Otherwise the source sets
`return_val = -1` when resolution failed but then UNCONDITIONALLY runs
`return_val = file_write (f, buffer, length)` — so `file_write` is invoked
even with a NULL file pointer, and its value is returned. -/
def sys_write (st : KState) (fd : Int) (buffer length : Nat) :
    Res × KState × List Event :=
  let st1 := { st with lockHeldBy := some st.cur }
  if fd == 1 then
    (Res.ok (-1), { st1 with lockHeldBy := none },
     [Event.lockAcquire, Event.putbuf buffer length, Event.lockRelease])
  else if fd == 0 then
    (Res.ok (-1), { st1 with lockHeldBy := none },
     [Event.lockAcquire, Event.lockRelease])
  else if bufInvalid buffer length then
    let st2 := { st1 with lockHeldBy := none }
    let p := sys_exit (-1) st2
    (Res.exited (-1), p.1,
     [Event.lockAcquire] ++ checkBufEvents buffer length ++ [Event.lockRelease] ++ p.2)
  else
    let f := find_file_by_fde st1 fd
    (Res.ok (st.fileWriteR f length), { st1 with lockHeldBy := none },
     [Event.lockAcquire] ++ checkBufEvents buffer length ++
       [Event.fileWrite f length, Event.lockRelease])

/-- `sys_open`.  NULL path returns −1; kernel-space path exits with −1;
`filesys_open` failure returns −1 with no allocation; allocation failure
closes the just-opened file and returns −1; success allocates the next
static `fid` (initially 2, post-incremented) and links the record into
both lists. -/
def sys_open (st : KState) (path : Nat) : Res × KState × List Event :=
  if path == 0 then (Res.ok (-1), st, [])
  else if !(is_user_vaddr path) then
    let p := sys_exit (-1) st
    (Res.exited (-1), p.1, [Event.validate path] ++ p.2)
  else
    match st.filesysOpenR path with
    | none => (Res.ok (-1), st, [Event.validate path, Event.filesysOpen path])
    | some f =>
        if st.mallocOk then
          (Res.ok st.nextFid,
           { st with
               openList := st.openList ++ [{ filedesc := st.nextFid, file := f, owner := st.cur }],
               nextFid := st.nextFid + 1 },
           [Event.validate path, Event.filesysOpen path])
        else
          (Res.ok (-1), st,
           [Event.validate path, Event.filesysOpen path, Event.fileClose f])

/-- `sys_exec`: `if (!cmd || !is_user_vaddr (cmd)) return -1;` — note the
source RETURNS −1 here rather than exiting — otherwise `process_execute`
runs under `file_lock` and its value is returned. -/
def sys_exec (st : KState) (cmd : Nat) : Res × KState × List Event :=
  if cmd == 0 then (Res.ok (-1), st, [])
  else if !(is_user_vaddr cmd) then (Res.ok (-1), st, [Event.validate cmd])
  else
    let st1 := { st with lockHeldBy := some st.cur }
    (Res.ok (st.processExecuteR cmd), { st1 with lockHeldBy := none },
     [Event.validate cmd, Event.lockAcquire, Event.processExecute cmd, Event.lockRelease])

/-- Modelled from the spec: the Pintos syscall-number enumeration (the
header `syscall-nr.h` is not under `src/`); the standard order assigns
`SYS_HALT = 0` consecutively through `SYS_INUMBER = 19`. -/
def SYS_HALT : Int := 0

/-- Modelled from the spec: syscall number of `exit` (see `SYS_HALT`). -/
def SYS_EXIT : Int := 1

/-- Modelled from the spec: syscall number of `exec` (see `SYS_HALT`). -/
def SYS_EXEC : Int := 2

/-- Modelled from the spec: syscall number of `wait` (see `SYS_HALT`). -/
def SYS_WAIT : Int := 3

/-- Modelled from the spec: syscall number of `create` (see `SYS_HALT`). -/
def SYS_CREATE : Int := 4

/-- Modelled from the spec: syscall number of `remove` (see `SYS_HALT`). -/
def SYS_REMOVE : Int := 5

/-- Modelled from the spec: syscall number of `open` (see `SYS_HALT`). -/
def SYS_OPEN : Int := 6

/-- Modelled from the spec: syscall number of `filesize` (see `SYS_HALT`). -/
def SYS_FILESIZE : Int := 7

/-- Modelled from the spec: syscall number of `read` (see `SYS_HALT`). -/
def SYS_READ : Int := 8

/-- Modelled from the spec: syscall number of `write` (see `SYS_HALT`). -/
def SYS_WRITE : Int := 9

/-- Modelled from the spec: syscall number of `seek` (see `SYS_HALT`). -/
def SYS_SEEK : Int := 10

/-- Modelled from the spec: syscall number of `tell` (see `SYS_HALT`). -/
def SYS_TELL : Int := 11

/-- Modelled from the spec: syscall number of `close` (see `SYS_HALT`). -/
def SYS_CLOSE : Int := 12

/-- Modelled from the spec: syscall number of `mmap`, the first number
with no registered handler (see `SYS_HALT`). -/
def SYS_MMAP : Int := 13

/-- Modelled from the spec: the last member of the enumeration
(see `SYS_HALT`). -/
def SYS_INUMBER : Int := 19

/-- The numbers given a handler by `syscall_init` (lines 52–64): exactly
the thirteen project-2 syscalls; every other slot of `syscall_vec` keeps
its zero initialisation, i.e. a NULL function pointer. -/
def syscall_vec_registered (n : Int) : Bool :=
  n == SYS_EXIT || n == SYS_HALT || n == SYS_CREATE || n == SYS_OPEN ||
  n == SYS_CLOSE || n == SYS_READ || n == SYS_WRITE || n == SYS_EXEC ||
  n == SYS_WAIT || n == SYS_FILESIZE || n == SYS_SEEK || n == SYS_TELL ||
  n == SYS_REMOVE

/-- Outcome of the trap entry point's number handling (line 83 onward). -/
inductive TrapGate where
  /-- the bounds check failed: `sys_exit (-1)`. -/
  | exitMinusOne : TrapGate
  /-- the bounds check passed and `syscall_vec [*stk_pos]` is invoked; the
  flag records whether that slot actually holds a registered handler. -/
  | dispatch (registered : Bool) : TrapGate
deriving DecidableEq

/-- The trap entry point's guard: `if (*stk_pos < SYS_HALT || *stk_pos > SYS_INUMBER) sys_exit (-1);`
followed by `hndlr = syscall_vec [*stk_pos]` and the indirect call. -/
def trap_gate (n : Int) : TrapGate :=
  if n < SYS_HALT || n > SYS_INUMBER then TrapGate.exitMinusOne
  else TrapGate.dispatch (syscall_vec_registered n)

/-- View of a handler outcome keeping only the observable part (result and
trace), dropping the state record. -/
def callView (x : Res × KState × List Event) : Res × List Event := (x.1, x.2.2)

/-- `callView` lifted over the fuel option of `sys_read`. -/
def callViewOpt (x : Option (Res × KState × List Event)) : Option (Res × List Event) :=
  x.map callView

/-- An event is dereference-free when it neither reads nor writes through
a user pointer on behalf of the handler: everything except the byte store
of the console loop, `putbuf`, `file_read` and `file_write`. -/
def derefFree : Event → Bool
  | Event.storeUserByte _ => false
  | Event.putbuf _ _ => false
  | Event.fileRead _ _ => false
  | Event.fileWrite _ _ => false
  | _ => true

/-- The allocator invariant of the Handle Registry: the static counter is
at least 2 and strictly above every descriptor already registered. -/
def fidInv (st : KState) : Prop :=
  2 ≤ st.nextFid ∧ ∀ e ∈ st.openList, 2 ≤ e.filedesc ∧ e.filedesc < st.nextFid

theorem find_fde_head (st : KState) (e : FDE) (rest : List FDE)
    (h : allFiles st = e :: rest) :
    find_fde_by_file st e.filedesc = some e := by
  unfold find_fde_by_file
  rw [h]
  exact List.find?_cons_of_pos _ (by simp)

theorem filter_owned_remove (cur : Nat) (e : FDE) :
    ∀ (l rest : List FDE),
      l.filter (fun x => x.owner == cur) = e :: rest →
      (removeFirstOwned l cur e.filedesc).filter (fun x => x.owner == cur) = rest := by
  intro l
  induction l with
  | nil => intro rest h; simp at h
  | cons x xs ih =>
    intro rest h
    by_cases hx : (x.owner == cur) = true
    · rw [List.filter_cons, if_pos hx] at h
      injection h with h1 h2
      subst h1
      simp [removeFirstOwned, hx, h2]
    · rw [List.filter_cons, if_neg hx] at h
      have hx' : (x.owner == cur) = false := by
        cases hb : (x.owner == cur) with
        | true => exact absurd hb hx
        | false => rfl
      simp only [removeFirstOwned, hx', Bool.false_and, Bool.false_eq_true, if_false]
      rw [List.filter_cons, if_neg hx]
      exact ih rest h

theorem filter_nonowned_remove (cur : Nat) (e : FDE) :
    ∀ (l rest : List FDE),
      l.filter (fun x => x.owner == cur) = e :: rest →
      (removeFirstOwned l cur e.filedesc).filter (fun x => !(x.owner == cur)) =
        l.filter (fun x => !(x.owner == cur)) := by
  intro l
  induction l with
  | nil => intro rest h; simp at h
  | cons x xs ih =>
    intro rest h
    by_cases hx : (x.owner == cur) = true
    · rw [List.filter_cons, if_pos hx] at h
      injection h with h1 h2
      subst h1
      simp [removeFirstOwned, hx]
    · rw [List.filter_cons, if_neg hx] at h
      have hx' : (x.owner == cur) = false := by
        cases hb : (x.owner == cur) with
        | true => exact absurd hb hx
        | false => rfl
      simp only [removeFirstOwned, hx', Bool.false_and, Bool.false_eq_true, if_false]
      rw [List.filter_cons, List.filter_cons,
          if_pos (show (!(x.owner == cur)) = true by simp [hx']),
          if_pos (show (!(x.owner == cur)) = true by simp [hx'])]
      rw [ih rest h]

theorem filter_nonowned_of_owned_nil (cur : Nat) :
    ∀ l : List FDE, l.filter (fun x => x.owner == cur) = [] →
      l.filter (fun x => !(x.owner == cur)) = l := by
  intro l
  induction l with
  | nil => intro _; rfl
  | cons x xs ih =>
    intro h
    by_cases hx : (x.owner == cur) = true
    · rw [List.filter_cons, if_pos hx] at h
      exact absurd h (by simp)
    · rw [List.filter_cons, if_neg hx] at h
      have hx' : (x.owner == cur) = false := by
        cases hb : (x.owner == cur) with
        | true => exact absurd hb hx
        | false => rfl
      rw [List.filter_cons, if_pos (show (!(x.owner == cur)) = true by simp [hx'])]
      rw [ih h]

theorem filter_owned_filter_nonowned (cur : Nat) :
    ∀ l : List FDE,
      (l.filter (fun x => !(x.owner == cur))).filter (fun x => x.owner == cur) = [] := by
  intro l
  induction l with
  | nil => rfl
  | cons x xs ih =>
    cases hx : (x.owner == cur) with
    | true =>
      rw [List.filter_cons]
      simp only [hx, Bool.not_true, Bool.false_eq_true, if_false]
      exact ih
    | false =>
      rw [List.filter_cons, if_pos (show (!(x.owner == cur)) = true by simp [hx])]
      rw [List.filter_cons, if_neg (by simp [hx])]
      exact ih

theorem closeAll_spec :
    ∀ (n : Nat) (st : KState), (allFiles st).length = n →
      closeAll n st =
        ({ st with openList := st.openList.filter (fun e => !(e.owner == st.cur)) },
         (allFiles st).map (fun e => Event.fileClose e.file)) := by
  intro n
  induction n with
  | zero =>
    intro st h
    have h0 : allFiles st = [] := List.length_eq_zero.mp h
    have h1 : st.openList.filter (fun e => !(e.owner == st.cur)) = st.openList :=
      filter_nonowned_of_owned_nil st.cur st.openList h0
    show (st, []) = _
    rw [h0, h1]
    rfl
  | succ n ih =>
    intro st h
    cases he : allFiles st with
    | nil => rw [he] at h; simp at h
    | cons e rest =>
      rw [he] at h
      have hrest : rest.length = n := by simpa using h
      have hclose : sys_close st e.filedesc =
          ({ st with openList := removeFirstOwned st.openList st.cur e.filedesc },
           [Event.fileClose e.file]) := by
        unfold sys_close
        rw [find_fde_head st e rest he]
      have hst1 : allFiles { st with openList := removeFirstOwned st.openList st.cur e.filedesc } = rest :=
        filter_owned_remove st.cur e st.openList rest he
      have hn : (allFiles { st with openList := removeFirstOwned st.openList st.cur e.filedesc }).length = n := by
        rw [hst1]; exact hrest
      have hih := ih _ hn
      rw [hst1] at hih
      have hfn : (removeFirstOwned st.openList st.cur e.filedesc).filter
            (fun x => !(x.owner == st.cur)) =
          st.openList.filter (fun x => !(x.owner == st.cur)) :=
        filter_nonowned_remove st.cur e st.openList rest he
      simp only [closeAll, he, List.head?_cons, hclose, hih]
      rw [hfn]
      rfl

theorem sys_exit_spec (status : Int) (st : KState) :
    sys_exit status st =
      ({ st with
           lockHeldBy := if st.lockHeldBy == some st.cur then none else st.lockHeldBy,
           openList := st.openList.filter (fun e => !(e.owner == st.cur)),
           retStatus := fun t => if t == st.cur then status else st.retStatus t },
       (if st.lockHeldBy == some st.cur then [Event.lockRelease] else []) ++
         (allFiles st).map (fun e => Event.fileClose e.file) ++ [Event.threadExit]) := by
  unfold sys_exit
  cases hl : (st.lockHeldBy == some st.cur) with
  | true =>
    simp only [hl, if_pos rfl]
    rw [closeAll_spec _ _ rfl]
    rfl
  | false =>
    simp only [hl, Bool.false_eq_true, if_false]
    rw [closeAll_spec _ _ rfl]

theorem sys_exit_events_derefFree (status : Int) (st : KState) :
    ∀ ev ∈ (sys_exit status st).2, derefFree ev = true := by
  rw [sys_exit_spec]
  intro ev hev
  simp only [List.mem_append] at hev
  rcases hev with (hev | hev) | hev
  · cases hl : (st.lockHeldBy == some st.cur) with
    | true => rw [if_pos hl] at hev; simp at hev; subst hev; rfl
    | false =>
      rw [if_neg (by simp [hl])] at hev
      simp at hev
  · simp only [List.mem_map] at hev
    obtain ⟨e, _, rfl⟩ := hev
    rfl
  · simp at hev; subst hev; rfl

theorem sys_read_stdin_loop_none (buffer size : Nat) (hs : 65536 ≤ size) :
    ∀ (fuel i : Nat) (acc : List Event), i < 65536 →
      sys_read_stdin_loop buffer size fuel i acc = none := by
  intro fuel
  induction fuel with
  | zero => intro i acc _; rfl
  | succ fuel ih =>
    intro i acc hi
    have hlt : i < size := lt_of_lt_of_le hi hs
    simp only [sys_read_stdin_loop, if_pos hlt]
    exact ih _ _ (Nat.mod_lt _ (by decide))

theorem beq_false_of_ne {α : Type} [BEq α] [LawfulBEq α] {a b : α} (h : a ≠ b) :
    (a == b) = false := by
  cases hb : (a == b) with
  | true => exact absurd (eq_of_beq hb) h
  | false => rfl

theorem checkBufEvents_derefFree (buffer size : Nat) :
    ∀ ev ∈ checkBufEvents buffer size, derefFree ev = true := by
  intro ev hev
  unfold checkBufEvents at hev
  cases hv : is_user_vaddr buffer with
  | true =>
    simp [hv] at hev
    rcases hev with rfl | rfl <;> rfl
  | false =>
    simp [hv] at hev
    subst hev
    rfl

theorem validate_mem_checkBufEvents (buffer size : Nat) :
    Event.validate buffer ∈ checkBufEvents buffer size := by
  unfold checkBufEvents
  cases hv : is_user_vaddr buffer <;> simp

/-- A concrete kernel state for instantiating theorems: thread 1 running,
lock free, no open files, and simple collaborator oracles (`file_read`
reports the full requested length, `file_write` reports 77,
`filesys_open` yields file object 5, `process_execute` yields pid 9). -/
def baseState : KState where
  openList := []
  cur := 1
  lockHeldBy := none
  nextFid := 2
  retStatus := fun _ => 0
  fileReadR := fun _ n => (n : Int)
  fileWriteR := fun _ _ => 77
  filesysOpenR := fun _ => some 5
  processExecuteR := fun _ => 9
  mallocOk := true

/-- Claim C1 (code defect at syscall number 13): the trap entry point's
bounds check accepts the whole closed range `SYS_HALT .. SYS_INUMBER`, yet
`syscall_init` registers handlers only for the thirteen numbers through
`SYS_CLOSE = 12`; `SYS_MMAP = 13` (and 14..19) passes the check with an
unregistered — NULL — `syscall_vec` slot, so an in-range number can be
dispatched with no registered handler, while numbers outside the range are
indeed terminated with status −1. -/
theorem C1_inrange_number_unregistered :
    trap_gate SYS_MMAP = TrapGate.dispatch false ∧
    trap_gate 14 = TrapGate.dispatch false ∧
    trap_gate SYS_INUMBER = TrapGate.dispatch false ∧
    trap_gate 20 = TrapGate.exitMinusOne ∧
    trap_gate (-1) = TrapGate.exitMinusOne ∧
    trap_gate SYS_READ = TrapGate.dispatch true ∧
    trap_gate SYS_CLOSE = TrapGate.dispatch true := by decide

/-- Claim C2 (code defect): `write (5, 4096, 3)` with descriptor 5 unowned
and a valid buffer — the source sets `return_val = -1` when resolution
fails but then unconditionally calls `file_write` with the NULL file
pointer and returns the collaborator's value: the filesystem collaborator
IS invoked and −1 is NOT returned. -/
theorem C2_write_unowned_calls_collaborator :
    callView (sys_write baseState 5 4096 3) =
      (Res.ok 77,
       [Event.lockAcquire, Event.validate 4096, Event.validate 4099,
        Event.fileWrite none 3, Event.lockRelease]) ∧
    Event.fileWrite none 3 ∈ (sys_write baseState 5 4096 3).2.2 ∧
    (sys_write baseState 5 4096 3).1 ≠ Res.ok (-1) := by decide

/-- Claim C3 counterexample: `read (0, PHYS_BASE, 1)` — a standard-input
read into a kernel address.  The handler stores a byte through the kernel
pointer, the Address Validator is never applied to the buffer, and the
syscall is not failed: it returns 1. -/
theorem C3_stdin_read_skips_validator :
    callViewOpt (sys_read 2 baseState 0 PHYS_BASE 1) =
      some (Res.ok 1,
            [Event.lockAcquire, Event.inputGetc, Event.storeUserByte PHYS_BASE,
             Event.lockRelease]) ∧
    Event.validate PHYS_BASE ∉
      [Event.lockAcquire, Event.inputGetc, Event.storeUserByte PHYS_BASE,
       Event.lockRelease] := by decide

/-- Claim C3 (amended): in `sys_read` and `sys_write`, on the branch where
the descriptor is neither standard input nor standard output, the Address
Validator runs on the buffer and a negative verdict fails the process
before any dereference — the syscall ends in `sys_exit (-1)` and its whole
trace contains the buffer validation and no user-memory or file-content
access.  (The standard-input read and standard-output write branches,
excluded here, dereference the buffer without validation: see the
counterexample.) -/
theorem C3_regular_branch_validates_first (st : KState) (fd : Int)
    (buffer size fuel : Nat)
    (h0 : fd ≠ 0) (h1 : fd ≠ 1) (hb : bufInvalid buffer size = true) :
    (∃ st1 tr1,
        sys_read fuel st fd buffer size = some (Res.exited (-1), st1, tr1) ∧
        Event.validate buffer ∈ tr1 ∧
        ∀ ev ∈ tr1, derefFree ev = true) ∧
    ((sys_write st fd buffer size).1 = Res.exited (-1) ∧
     Event.validate buffer ∈ (sys_write st fd buffer size).2.2 ∧
     ∀ ev ∈ (sys_write st fd buffer size).2.2, derefFree ev = true) := by
  have hfd0 : (fd == 0) = false := beq_false_of_ne h0
  have hfd1 : (fd == 1) = false := beq_false_of_ne h1
  have er : sys_read fuel st fd buffer size =
      some (Res.exited (-1), (sys_exit (-1) { st with lockHeldBy := none }).1,
            [Event.lockAcquire] ++ checkBufEvents buffer size ++ [Event.lockRelease] ++
              (sys_exit (-1) { st with lockHeldBy := none }).2) := by
    unfold sys_read
    rw [if_neg (by simp [hfd0]), if_neg (by simp [hfd1]), if_pos hb]
  have ew : sys_write st fd buffer size =
      (Res.exited (-1), (sys_exit (-1) { st with lockHeldBy := none }).1,
       [Event.lockAcquire] ++ checkBufEvents buffer size ++ [Event.lockRelease] ++
         (sys_exit (-1) { st with lockHeldBy := none }).2) := by
    unfold sys_write
    rw [if_neg (by simp [hfd1]), if_neg (by simp [hfd0]), if_pos hb]
  have hmem : Event.validate buffer ∈
      [Event.lockAcquire] ++ checkBufEvents buffer size ++ [Event.lockRelease] ++
        (sys_exit (-1) { st with lockHeldBy := none }).2 := by
    simp only [List.mem_append]
    exact Or.inl (Or.inl (Or.inr (validate_mem_checkBufEvents buffer size)))
  have hsafe : ∀ ev ∈
      [Event.lockAcquire] ++ checkBufEvents buffer size ++ [Event.lockRelease] ++
        (sys_exit (-1) { st with lockHeldBy := none }).2, derefFree ev = true := by
    intro ev hev
    simp only [List.mem_append] at hev
    rcases hev with ((hev | hev) | hev) | hev
    · rw [List.mem_singleton] at hev; subst hev; rfl
    · exact checkBufEvents_derefFree buffer size ev hev
    · rw [List.mem_singleton] at hev; subst hev; rfl
    · exact sys_exit_events_derefFree (-1) _ ev hev
  refine ⟨⟨_, _, er, hmem, hsafe⟩, ?_, ?_, ?_⟩
  · rw [ew]
  · rw [ew]; exact hmem
  · rw [ew]; exact hsafe

/-- Witness for the amended C3 at a concrete input: descriptor 5, kernel
buffer `PHYS_BASE`, size 4. -/
theorem C3_regular_branch_validates_first_witness :
    (5 : Int) ≠ 0 ∧ (5 : Int) ≠ 1 ∧ bufInvalid PHYS_BASE 4 = true ∧
    ((∃ st1 tr1,
        sys_read 0 baseState 5 PHYS_BASE 4 = some (Res.exited (-1), st1, tr1) ∧
        Event.validate PHYS_BASE ∈ tr1 ∧
        ∀ ev ∈ tr1, derefFree ev = true) ∧
     ((sys_write baseState 5 PHYS_BASE 4).1 = Res.exited (-1) ∧
      Event.validate PHYS_BASE ∈ (sys_write baseState 5 PHYS_BASE 4).2.2 ∧
      ∀ ev ∈ (sys_write baseState 5 PHYS_BASE 4).2.2, derefFree ev = true)) :=
  ⟨by decide, by decide, by decide,
   C3_regular_branch_validates_first baseState 5 PHYS_BASE 4 0
     (by decide) (by decide) (by decide)⟩

/-- State for C4: thread 42 owns descriptor 2 bound to file object 7; the
current thread is 1, whose ownership set is empty. -/
def crossState : KState :=
  { baseState with openList := [{ filedesc := 2, file := 7, owner := 42 }] }

/-- Claim C4 (code defect): thread 1 calls `read (2, 4096, 10)` on a
descriptor it does not own (it belongs to thread 42, and thread 1's
ownership set is empty); `find_file_by_fde` scans the GLOBAL
`open_file_list`, so the read reaches thread 42's file object 7 and
returns the collaborator's byte count 10 instead of −1. -/
theorem C4_cross_process_descriptor_reached :
    callViewOpt (sys_read 1 crossState 2 4096 10) =
      some (Res.ok 10,
            [Event.lockAcquire, Event.validate 4096, Event.validate 4106,
             Event.fileRead (some 7) 10, Event.lockRelease]) ∧
    allFiles crossState = [] ∧
    (sys_read 1 crossState 2 4096 10).map (fun x => x.1) ≠ some (Res.ok (-1)) := by
  decide

/-- Claim C5: the failure paths of `open`.  A null path returns −1 with
untouched state; a kernel-space path fails the process; a filesystem miss
returns −1 with no allocation; an allocation failure closes the
just-opened file object and returns −1 — on no failure path does a handle
or an open file object survive. -/
theorem C5_open_failure_paths (st : KState) (path : Nat) (f : Nat) :
    (sys_open st 0 = (Res.ok (-1), st, [])) ∧
    (path ≠ 0 → is_user_vaddr path = false →
      (sys_open st path).1 = Res.exited (-1)) ∧
    (path ≠ 0 → is_user_vaddr path = true → st.filesysOpenR path = none →
      sys_open st path =
        (Res.ok (-1), st, [Event.validate path, Event.filesysOpen path])) ∧
    (path ≠ 0 → is_user_vaddr path = true → st.filesysOpenR path = some f →
      st.mallocOk = false →
      sys_open st path =
        (Res.ok (-1), st,
         [Event.validate path, Event.filesysOpen path, Event.fileClose f])) := by
  refine ⟨rfl, ?_, ?_, ?_⟩
  · intro hp hv
    have hp' : (path == 0) = false := beq_false_of_ne hp
    unfold sys_open
    rw [if_neg (by simp [hp']), if_pos (by simp [hv])]
  · intro hp hv ho
    have hp' : (path == 0) = false := beq_false_of_ne hp
    unfold sys_open
    rw [if_neg (by simp [hp']), if_neg (by simp [hv]), ho]
  · intro hp hv ho hm
    have hp' : (path == 0) = false := beq_false_of_ne hp
    unfold sys_open
    rw [if_neg (by simp [hp']), if_neg (by simp [hv]), ho]
    simp only [hm, Bool.false_eq_true, if_false]

/-- State whose filesystem collaborator cannot open any path. -/
def noFileState : KState := { baseState with filesysOpenR := fun _ => none }

/-- State whose allocator is out of memory. -/
def noMemState : KState := { baseState with mallocOk := false }

/-- Witness for C5 at concrete inputs: the null path on `baseState`, the
kernel path `PHYS_BASE`, a filesystem miss on `noFileState` and an
allocation failure on `noMemState`. -/
theorem C5_open_failure_paths_witness :
    (sys_open baseState 0 = (Res.ok (-1), baseState, [])) ∧
    ((sys_open baseState PHYS_BASE).1 = Res.exited (-1)) ∧
    (sys_open noFileState 4096 =
      (Res.ok (-1), noFileState, [Event.validate 4096, Event.filesysOpen 4096])) ∧
    (sys_open noMemState 4096 =
      (Res.ok (-1), noMemState,
       [Event.validate 4096, Event.filesysOpen 4096, Event.fileClose 5])) :=
  ⟨(C5_open_failure_paths baseState 0 0).1,
   (C5_open_failure_paths baseState PHYS_BASE 0).2.1 (by decide) (by decide),
   (C5_open_failure_paths noFileState 4096 0).2.2.1 (by decide) (by decide) rfl,
   (C5_open_failure_paths noMemState 4096 5).2.2.2 (by decide) (by decide) rfl rfl⟩

/-- Claim C6: `exit (status)` releases the filesystem lock when the caller
holds it, closes every file object in the caller's ownership set and
removes every owned record (the set is empty afterwards, other processes'
records untouched), records `status` as the caller's exit status, and
hands control to `thread_exit` — `sys_exit` yields no return value and its
trace ends with `threadExit`. -/
theorem C6_exit_teardown (st : KState) (status : Int) :
    (st.lockHeldBy = some st.cur → (sys_exit status st).1.lockHeldBy = none) ∧
    allFiles (sys_exit status st).1 = [] ∧
    (sys_exit status st).1.openList =
      st.openList.filter (fun e => !(e.owner == st.cur)) ∧
    (∀ e ∈ st.openList, e.owner = st.cur →
      Event.fileClose e.file ∈ (sys_exit status st).2) ∧
    (sys_exit status st).1.retStatus st.cur = status ∧
    (sys_exit status st).2.getLast? = some Event.threadExit := by
  rw [sys_exit_spec]
  refine ⟨?_, ?_, rfl, ?_, ?_, ?_⟩
  · intro h
    show (if st.lockHeldBy == some st.cur then none else st.lockHeldBy) = none
    rw [if_pos (by simp [h])]
  · show (st.openList.filter (fun e => !(e.owner == st.cur))).filter
        (fun e => e.owner == st.cur) = []
    exact filter_owned_filter_nonowned st.cur st.openList
  · intro e he ho
    have hmem : e ∈ allFiles st := List.mem_filter.mpr ⟨he, by simp [ho]⟩
    simp only [List.mem_append]
    exact Or.inl (Or.inr (List.mem_map.mpr ⟨e, hmem, rfl⟩))
  · show (fun t => if t == st.cur then status else st.retStatus t) st.cur = status
    simp
  · show ((if st.lockHeldBy == some st.cur then [Event.lockRelease] else []) ++
        (allFiles st).map (fun e => Event.fileClose e.file) ++
          [Event.threadExit]).getLast? = some Event.threadExit
    exact List.getLast?_concat _

/-- State for the C6 witness: thread 1 holds the lock and owns descriptors
2 (file 7) and 3 (file 8); thread 4 owns descriptor 9 (file 6). -/
def exitState : KState :=
  { baseState with
      openList := [{ filedesc := 2, file := 7, owner := 1 },
                   { filedesc := 9, file := 6, owner := 4 },
                   { filedesc := 3, file := 8, owner := 1 }],
      lockHeldBy := some 1 }

/-- Witness for C6: `exit (5)` on `exitState` releases the lock, closes
files 7 and 8, empties thread 1's set, keeps thread 4's record, records
status 5 and ends in `threadExit`. -/
theorem C6_exit_teardown_witness :
    exitState.lockHeldBy = some exitState.cur ∧
    (sys_exit 5 exitState).1.lockHeldBy = none ∧
    allFiles (sys_exit 5 exitState).1 = [] ∧
    (sys_exit 5 exitState).1.openList =
      exitState.openList.filter (fun e => !(e.owner == exitState.cur)) ∧
    Event.fileClose 7 ∈ (sys_exit 5 exitState).2 ∧
    Event.fileClose 8 ∈ (sys_exit 5 exitState).2 ∧
    (sys_exit 5 exitState).1.retStatus 1 = 5 ∧
    (sys_exit 5 exitState).2.getLast? = some Event.threadExit := by
  have h := C6_exit_teardown exitState 5
  exact ⟨rfl, h.1 rfl, h.2.1, h.2.2.1,
         h.2.2.2.1 { filedesc := 2, file := 7, owner := 1 } (by decide) rfl,
         h.2.2.2.1 { filedesc := 3, file := 8, owner := 1 } (by decide) rfl,
         h.2.2.2.2.1, h.2.2.2.2.2⟩

/-- Claim C7 (code defect at `size = 65536`): the console-read loop runs a
16-bit counter against the full-width `size`; for any `size ≥ 2^16` the
counter wraps below `size` forever and `read (0, buf, size)` never
terminates (no fuel suffices), instead of reading `size` bytes and
returning `size`.  The standard-output half of the claim does hold:
`read (1, buf, 65536)` returns −1 without touching the console. -/
theorem C7_stdin_read_never_terminates :
    (∀ fuel : Nat, sys_read fuel baseState 0 4096 65536 = none) ∧
    callViewOpt (sys_read 1 baseState 1 4096 65536) =
      some (Res.ok (-1), [Event.lockAcquire, Event.lockRelease]) := by
  constructor
  · intro fuel
    have h := sys_read_stdin_loop_none 4096 65536 (le_refl _) fuel 0 [] (by decide)
    unfold sys_read
    rw [if_pos (show ((0 : Int) == 0) = true from rfl), h]
  · decide

/-- Claim C8 counterexample: `exec` with a null or kernel-space command
line RETURNS −1 to the caller — the process is not terminated (the result
is `Res.ok`, not `Res.exited`, and no `threadExit` is traced) — and this
−1 arises although process creation (oracle pid 9) never failed, so −1 is
not returned "only when creation failed". -/
theorem C8_exec_invalid_cmdline_returns :
    callView (sys_exec baseState PHYS_BASE) =
      (Res.ok (-1), [Event.validate PHYS_BASE]) ∧
    callView (sys_exec baseState 0) = (Res.ok (-1), []) ∧
    callView (sys_exec baseState 4096) =
      (Res.ok 9,
       [Event.validate 4096, Event.lockAcquire, Event.processExecute 4096,
        Event.lockRelease]) := by decide

/-- Claim C8 (amended): when `cmdline` is null or not a user address,
`exec` returns −1 to the caller without terminating the process and
without invoking `process_execute`; otherwise it runs `process_execute`
under the filesystem lock and returns its result (so −1 is also produced
for a bad pointer, not only for failed creation). -/
theorem C8_exec_behavior (st : KState) (cmd : Nat) :
    (cmd = 0 → sys_exec st cmd = (Res.ok (-1), st, [])) ∧
    (cmd ≠ 0 → is_user_vaddr cmd = false →
      sys_exec st cmd = (Res.ok (-1), st, [Event.validate cmd])) ∧
    (cmd ≠ 0 → is_user_vaddr cmd = true →
      callView (sys_exec st cmd) =
        (Res.ok (st.processExecuteR cmd),
         [Event.validate cmd, Event.lockAcquire, Event.processExecute cmd,
          Event.lockRelease])) := by
  refine ⟨?_, ?_, ?_⟩
  · intro h; subst h; rfl
  · intro hc hv
    have hc' : (cmd == 0) = false := beq_false_of_ne hc
    unfold sys_exec
    rw [if_neg (by simp [hc']), if_pos (by simp [hv])]
  · intro hc hv
    have hc' : (cmd == 0) = false := beq_false_of_ne hc
    unfold sys_exec
    rw [if_neg (by simp [hc']), if_neg (by simp [hv])]
    rfl

/-- Witness for the amended C8 at concrete inputs 0, `PHYS_BASE`, 4096. -/
theorem C8_exec_behavior_witness :
    (sys_exec baseState 0 = (Res.ok (-1), baseState, [])) ∧
    (sys_exec baseState PHYS_BASE =
      (Res.ok (-1), baseState, [Event.validate PHYS_BASE])) ∧
    (callView (sys_exec baseState 4096) =
      (Res.ok 9,
       [Event.validate 4096, Event.lockAcquire, Event.processExecute 4096,
        Event.lockRelease])) :=
  ⟨(C8_exec_behavior baseState 0).1 rfl,
   (C8_exec_behavior baseState PHYS_BASE).2.1 (by decide) (by decide),
   (C8_exec_behavior baseState 4096).2.2 (by decide) (by decide)⟩

/-- Claim C9: under the allocator invariant (counter at least 2 and above
every registered descriptor — true of the initial state, preserved by
`open`), a successful `open` returns the counter value, which is at least
2 and distinct from every descriptor ever registered; a second successful
`open` (even of the same path) returns the strictly larger successor; and
descriptors 0 and 1 never appear in the registry. -/
theorem C9_fid_allocation (st : KState) (path1 path2 : Nat) (f1 f2 : Nat)
    (hinv : fidInv st)
    (hp1 : path1 ≠ 0) (hv1 : is_user_vaddr path1 = true)
    (ho1 : st.filesysOpenR path1 = some f1)
    (hp2 : path2 ≠ 0) (hv2 : is_user_vaddr path2 = true)
    (ho2 : st.filesysOpenR path2 = some f2)
    (hm : st.mallocOk = true) :
    (sys_open st path1).1 = Res.ok st.nextFid ∧
    2 ≤ st.nextFid ∧
    (∀ e ∈ st.openList, e.filedesc ≠ st.nextFid) ∧
    fidInv (sys_open st path1).2.1 ∧
    (sys_open (sys_open st path1).2.1 path2).1 = Res.ok (st.nextFid + 1) ∧
    st.nextFid + 1 ≠ st.nextFid ∧
    (∀ e ∈ (sys_open (sys_open st path1).2.1 path2).2.1.openList,
        e.filedesc ≠ 0 ∧ e.filedesc ≠ 1) := by
  have hb1 : (path1 == 0) = false := beq_false_of_ne hp1
  have hb2 : (path2 == 0) = false := beq_false_of_ne hp2
  have e1 : sys_open st path1 =
      (Res.ok st.nextFid,
       { st with
           openList := st.openList ++ [{ filedesc := st.nextFid, file := f1, owner := st.cur }],
           nextFid := st.nextFid + 1 },
       [Event.validate path1, Event.filesysOpen path1]) := by
    unfold sys_open
    rw [if_neg (by simp [hb1]), if_neg (by simp [hv1]), ho1]
    simp [hm]
  have e2 : sys_open
      ({ st with
           openList := st.openList ++ [{ filedesc := st.nextFid, file := f1, owner := st.cur }],
           nextFid := st.nextFid + 1 } : KState) path2 =
      (Res.ok (st.nextFid + 1),
       { st with
           openList := (st.openList ++ [{ filedesc := st.nextFid, file := f1, owner := st.cur }]) ++
             [{ filedesc := st.nextFid + 1, file := f2, owner := st.cur }],
           nextFid := st.nextFid + 1 + 1 },
       [Event.validate path2, Event.filesysOpen path2]) := by
    unfold sys_open
    dsimp only
    rw [if_neg (by simp [hb2]), if_neg (by simp [hv2]), ho2]
    simp [hm]
  obtain ⟨hge, hall⟩ := hinv
  rw [e1]
  dsimp only
  refine ⟨rfl, hge, ?_, ?_, ?_, by omega, ?_⟩
  · intro e he
    have := (hall e he).2
    omega
  · refine ⟨?_, ?_⟩
    · show 2 ≤ st.nextFid + 1
      omega
    · intro e he
      rcases List.mem_append.mp he with he2 | he2
      · obtain ⟨ha, hb⟩ := hall e he2
        refine ⟨ha, ?_⟩
        show e.filedesc < st.nextFid + 1
        omega
      · rw [List.mem_singleton] at he2
        subst he2
        refine ⟨hge, ?_⟩
        show st.nextFid < st.nextFid + 1
        omega
  · rw [e2]
  · rw [e2]
    dsimp only
    intro e he
    rcases List.mem_append.mp he with he2 | he2
    · rcases List.mem_append.mp he2 with he3 | he3
      · obtain ⟨ha, hb⟩ := hall e he3
        exact ⟨by omega, by omega⟩
      · rw [List.mem_singleton] at he3
        subst he3
        refine ⟨?_, ?_⟩
        · show st.nextFid ≠ 0
          omega
        · show st.nextFid ≠ 1
          omega
    · rw [List.mem_singleton] at he2
      subst he2
      refine ⟨?_, ?_⟩
      · show st.nextFid + 1 ≠ 0
        omega
      · show st.nextFid + 1 ≠ 1
        omega

/-- Witness for C9: two opens of the same path on the initial state yield
descriptors 2 then 3, and neither 0 nor 1 is registered. -/
theorem C9_fid_allocation_witness :
    fidInv baseState ∧
    (sys_open baseState 4096).1 = Res.ok 2 ∧
    (sys_open (sys_open baseState 4096).2.1 4096).1 = Res.ok 3 ∧
    (∀ e ∈ (sys_open (sys_open baseState 4096).2.1 4096).2.1.openList,
        e.filedesc ≠ 0 ∧ e.filedesc ≠ 1) := by
  have hfid : fidInv baseState := ⟨by decide, fun e he => absurd he (List.not_mem_nil e)⟩
  have h := C9_fid_allocation baseState 4096 4096 5 5 hfid
    (by decide) (by decide) rfl (by decide) (by decide) rfl rfl
  exact ⟨hfid, h.1, h.2.2.2.2.1, h.2.2.2.2.2.2⟩

/-- Claim C10: `write (1, buffer, length)` with a valid buffer forwards
the bytes to the console through `putbuf` but returns −1 — `return_val`
is initialised to −1 and the standard-output branch never updates it — so
the caller cannot tell this "success" from a failure. -/
theorem C10_stdout_write_returns_minus_one (st : KState) (buffer length : Nat)
    (_h : is_user_vaddr buffer = true) :
    callView (sys_write st 1 buffer length) =
      (Res.ok (-1),
       [Event.lockAcquire, Event.putbuf buffer length, Event.lockRelease]) := rfl

/-- Witness for C10: `write (1, 4096, 2)` on the initial state. -/
theorem C10_stdout_write_returns_minus_one_witness :
    is_user_vaddr 4096 = true ∧
    callView (sys_write baseState 1 4096 2) =
      (Res.ok (-1),
       [Event.lockAcquire, Event.putbuf 4096 2, Event.lockRelease]) :=
  ⟨by decide, C10_stdout_write_returns_minus_one baseState 4096 2 (by decide)⟩

end Pintos
